import Mathlib

/-!
Shallow embedding of the memory latency benchmark (src/benchmarks/mem/membench.c)
and proofs about its cycle generator, traversal loops, timing source and
orchestrator.

The per-CPU arena of cache-line nodes (`struct s array[MAX_CPUS][...]`) is
modelled as a function from node index to node.  A node's `ptr` field holds
either NULL (`PtrVal.null`, from `memset` or the zero-initialised global
array), the occupation marker `(struct s*)1` (`PtrVal.mark`), or the address
of node `j` of the same arena (`PtrVal.addr j`).  The `uint32_t dummy[14]`
padding is a function from index to value, maintained modulo 2^32.
Machine-level details below node granularity (partial `memset` of a trailing
fraction of a node when `size` is not a multiple of 64) are not modelled; all
concrete inputs used have `size` a multiple of 64.
-/

namespace Membench

inductive PtrVal where
  | null : PtrVal
  | mark : PtrVal
  | addr : Nat → PtrVal
deriving DecidableEq

structure Node where
  ptr : PtrVal
  dummy : Nat → Nat

def Arena : Type := Nat → Node

/-- The zero-initialised arena: `struct s array[MAX_CPUS][...]` is a global of
static storage duration, so every byte starts out zero. -/
def zeroArena : Arena := fun _ => { ptr := PtrVal.null, dummy := fun _ => 0 }

/-- Write the `ptr` field of node `i` (`array[i].ptr = ...`). -/
def setPtr (a : Arena) (i : Nat) (v : PtrVal) : Arena :=
  fun k => if k = i then { ptr := v, dummy := (a k).dummy } else a k

/-- `memset(array, 0, size)` at node granularity: zeroes the first
`size / 64` nodes. -/
def memsetZero (a : Arena) (size : Nat) : Arena :=
  fun k => if k < size / 64 then { ptr := PtrVal.null, dummy := fun _ => 0 } else a k

/-- First `n` iterations of the sequential branch of `prepare`
(`for (i = 0; i < count - 1; i++) array[i].ptr = &array[i+1];`,
membench.c lines 93-94). -/
def prepareSeqLoop (a : Arena) : Nat → Arena
  | 0 => a
  | n + 1 => setPtr (prepareSeqLoop a n) n (PtrVal.addr (n + 1))

/-- The linear scan of random-mode `prepare`
(`for (j = rand() % count; array[j].ptr != NULL; j = (j >= count) ? 0 : j+1);`,
membench.c lines 101-103), returning the list of indices `j` at which the
condition reads `array[j].ptr`, and the exit index.  `fuel` is an artificial
bound on the number of probes; the C scan always terminates within
`count + 2` probes because an unoccupied node exists below `count`. -/
def scanTrace (a : Arena) (count : Nat) : Nat → Nat → List Nat × Option Nat
  | _, 0 => ([], none)
  | j, fuel + 1 =>
      if (a j).ptr = PtrVal.null then ([j], some j)
      else
        let rest := scanTrace a count (if count ≤ j then 0 else j + 1) fuel
        (j :: rest.1, rest.2)

/-- The main loop of random-mode `prepare` (membench.c lines 98-105), iterated
`iters` times, consuming one `rand()` value `r` per iteration (`j` starts at
`r % count`); returns the arena, the final cursor `p`, and the concatenation
of all indices probed by the scans.  (The C loop never exhausts the `rand()`
stream; the empty-stream case is an artifact of the list encoding.) -/
def prepareRandLoop (count fuel : Nat) : Arena → Nat → List Nat → Nat → Arena × Nat × List Nat
  | a, p, _, 0 => (a, p, [])
  | a, p, [], _ + 1 => (a, p, [])
  | a, p, r :: rs, i + 1 =>
      let a1 := setPtr a p PtrVal.mark
      let s := scanTrace a1 count (r % count) fuel
      match s.2 with
      | some j =>
          let rest := prepareRandLoop count fuel (setPtr a1 p (PtrVal.addr j)) j rs i
          (rest.1, rest.2.1, s.1 ++ rest.2.2)
      | none => (a1, p, s.1)

/-- `prepare` (membench.c lines 87-108).  `rands` is the stream of `rand()`
values consumed by random mode.  C computes `count = size / sizeof(struct s)`
with `sizeof(struct s) = 64`; `count = 0` would index `array[-1]` in C
(undefined behaviour) and is out of scope. -/
def prepare (a : Arena) (size : Nat) (sequential : Bool) (rands : List Nat) : Arena :=
  let count := size / 64
  if sequential then
    setPtr (prepareSeqLoop a (count - 1)) (count - 1) (PtrVal.addr 0)
  else
    let r := prepareRandLoop count (count + 2) (memsetZero a size) 0 rands (count - 1)
    setPtr r.1 r.2.1 (PtrVal.addr 0)

/-- The indices at which the scans of a random-mode `prepare` read a node's
`ptr` field (the counting instrumentation of the scan loop). -/
def prepareProbes (a : Arena) (size : Nat) (rands : List Nat) : List Nat :=
  let count := size / 64
  (prepareRandLoop count (count + 2) (memsetZero a size) 0 rands (count - 1)).2.2

def UINT32 : Nat := 2 ^ 32

/-- One pre-decrement `--i` of an `unsigned` (32-bit) value, with wraparound. -/
def dec32 (i : Nat) : Nat := (i + (UINT32 - 1)) % UINT32

/-- Number of body executions of `while (--i) { ... }` for an `unsigned i`
starting at the given value (the loop control of `do_read`, membench.c lines
112-114, and of `do_write`, lines 152-154). -/
def loopCount (i : Nat) : Nat :=
  if h : dec32 i = 0 then 0 else 1 + loopCount (dec32 i)
termination_by if i = 0 then UINT32 else i
decreasing_by
  simp only [dec32, UINT32] at h ⊢
  rw [if_neg h]
  by_cases hi : i = 0
  · rw [hi, if_pos rfl]
    omega
  · rw [if_neg hi]
    omega

/-- Pointer-following steps executed by `do_read` / `do_write` for a requested
operation count `ops`: `loopCount (ops / 32)` batches of 32 unrolled steps. -/
def stepsExecuted (ops : Nat) : Nat := 32 * loopCount (ops / 32)

/-- One `p = p->ptr` step; `none` models dereferencing NULL or the marker. -/
def readStep (a : Arena) (p : Nat) : Option Nat :=
  match (a p).ptr with
  | PtrVal.addr j => some j
  | _ => none

/-- `n` successive `p = p->ptr` steps from node `p`. -/
def readIter (a : Arena) : Nat → Nat → Option Nat
  | p, 0 => some p
  | p, n + 1 =>
      match readStep a p with
      | some j => readIter a j n
      | none => none

/-- `do_read` (membench.c lines 110-148): start at `&array[0]` and follow
`ptr` for `stepsExecuted reads` steps; returns the final cursor. -/
def do_read (a : Arena) (reads : Nat) : Option Nat :=
  readIter a 0 (stepsExecuted reads)

/-- `p->dummy[ofs]++` on node `i`: a `uint32_t` increment, modulo 2^32. -/
def incDummy (a : Arena) (i ofs : Nat) : Arena :=
  fun k =>
    if k = i then
      { ptr := (a k).ptr,
        dummy := fun o => if o = ofs then ((a k).dummy o + 1) % UINT32 else (a k).dummy o }
    else a k

/-- One write-mode step: `p->dummy[ofs]++; p = p->ptr;` (one unrolled line of
`do_write`, membench.c lines 155-186). -/
def writeStep (ofs : Nat) (a : Arena) (p : Nat) : Option (Arena × Nat) :=
  let a1 := incDummy a p ofs
  match (a1 p).ptr with
  | PtrVal.addr j => some (a1, j)
  | _ => none

/-- `n` successive write-mode steps from node `p`. -/
def writeIter (ofs : Nat) : Arena → Nat → Nat → Option (Arena × Nat)
  | a, p, 0 => some (a, p)
  | a, p, n + 1 =>
      match writeStep ofs a p with
      | some s => writeIter ofs s.1 s.2 n
      | none => none

/-- `do_write` (membench.c lines 150-188): start at `&array[0]` and run
`stepsExecuted accesses` write-mode steps. -/
def do_write (a : Arena) (accesses ofs : Nat) : Option (Arena × Nat) :=
  writeIter ofs a 0 (stepsExecuted accesses)

/-- `struct cfg` (membench.c lines 31-40); the CPU set is not needed by the
claims proved here. -/
structure Cfg where
  sequential : Bool
  size : Nat
  num_threads : Nat
  read_count : Nat
  write : Bool
  ofs : Nat
  use_cycles : Bool

/-- `ccntr_get` on a build for an architecture without the AArch64 cycle
counter (the `#else` branch, membench.c lines 67-70): the constant 0. -/
def ccntr_get : Nat := 0

/-- `get_time` (membench.c lines 72-83) on a build without a readable cycle
counter; `monotonic_ns` is the nanosecond value `clock_gettime(CLOCK_MONOTONIC)`
delivers at the call. -/
def get_time (cfg : Cfg) (monotonic_ns : Nat) : Nat :=
  if cfg.use_cycles = false then monotonic_ns else ccntr_get

/-- The per-worker result computed by `benchmark_thread` (membench.c line 231):
`(double)(tac - tic) / cfg->read_count`, with `double` modelled as `ℚ` and
`tac - tic` the truncated `uint64` difference of the two timestamps. -/
def benchmark_result (cfg : Cfg) (tic tac : Nat) : ℚ :=
  ((tac - tic : Nat) : ℚ) / (cfg.read_count : ℚ)

def MAX_CPUS : Nat := 8

/-- The indices `i` at which `run_benchmark` (membench.c lines 243-260) writes
the record `thread[i]` of `struct benchmark_thread thread[MAX_CPUS]` and
creates a worker: the loop runs `i = 0 .. num_threads - 1` with no check
against `MAX_CPUS`, and `main` (line 334) stores the `-t` argument into
`num_threads` unchecked. -/
def threadRecordIndices (num_threads : Nat) : List Nat := List.range num_threads

/-- The pointer structure produced by sequential `prepare` over `count` nodes:
node `i` links to `i + 1`, the last node links back to node 0. -/
def seqCycle (a : Arena) (count : Nat) : Prop :=
  ∀ i, i < count → (a i).ptr = PtrVal.addr (if i + 1 = count then 0 else i + 1)

/-! ## Lemmas about the `while (--i)` loop counter -/

/-- Unfolding `--i` at 0: the unsigned counter wraps to `2^32 - 1`. -/
theorem dec32_zero : dec32 0 = UINT32 - 1 := by
  simp [dec32, UINT32]

/-- Unfolding `--i` at a positive representable value. -/
theorem dec32_succ (i : Nat) (h : i + 1 < UINT32) : dec32 (i + 1) = i := by
  simp only [dec32, UINT32] at h ⊢
  omega

/-- A `while (--i)` loop started at a positive representable value runs its
body `i - 1` times. -/
theorem loopCount_pos (i : Nat) (h1 : 1 ≤ i) (h2 : i < UINT32) : loopCount i = i - 1 := by
  induction i with
  | zero => omega
  | succ n ih =>
    have hd : dec32 (n + 1) = n := dec32_succ n h2
    rw [loopCount]
    by_cases hn : n = 0
    · subst hn
      simp [hd]
    · rw [hd, dif_neg hn, ih (by omega) (by omega)]
      omega

/-- A `while (--i)` loop started at 0 runs its body `2^32 - 1` times: the
pre-decrement wraps the unsigned counter. -/
theorem loopCount_zero : loopCount 0 = UINT32 - 1 := by
  rw [loopCount]
  have h1 : ¬ dec32 0 = 0 := by
    rw [dec32_zero]
    simp [UINT32]
  rw [dif_neg h1, dec32_zero, loopCount_pos (UINT32 - 1) (by simp [UINT32]) (by simp [UINT32])]
  simp [UINT32]

/-! ## Claims about the traversal loop step count -/

/-- C8: for the concrete request `op_count = 32` the read loop executes
exactly 0 full batches of 32 steps: the batch counter `floor(32/32) = 1` is
consumed by the initial `--i` before the first batch runs, so no pointer step
is executed. -/
theorem c8_opcount_32_zero_batches :
    loopCount (32 / 32) = 0 ∧ stepsExecuted 32 = 0 := by
  have h1 : loopCount 1 = 0 := by
    rw [loopCount_pos 1 (by omega) (by simp [UINT32])]
  constructor
  · exact h1
  · rw [stepsExecuted]
    norm_num [h1]

/-- C9: for every requested operation count strictly below 32 the batch
counter starts at `floor(op_count/32) = 0`, the pre-decrement wraps it to
`2^32 - 1`, and the loop executes `2^32 - 1` batches of 32 steps rather than
0 steps. -/
theorem c9_small_opcount_wraps (r : Nat) (h : r < 32) :
    loopCount (r / 32) = UINT32 - 1 ∧ stepsExecuted r = 32 * (UINT32 - 1) := by
  have h0 : r / 32 = 0 := Nat.div_eq_of_lt h
  refine ⟨by rw [h0, loopCount_zero], ?_⟩
  rw [stepsExecuted, h0, loopCount_zero]

/-- C9 witness: at `op_count = 1` the loop runs `2^32 - 1` batches. -/
theorem c9_small_opcount_wraps_witness :
    loopCount (1 / 32) = UINT32 - 1 ∧ stepsExecuted 1 = 32 * (UINT32 - 1) :=
  c9_small_opcount_wraps 1 (by decide)

/-- C2 counterexample: at `op_count = 32` the claimed step count
`floor(32/32)*32 = 32` is wrong; the engine executes 0 steps because the
pre-decrement consumes the single batch. -/
theorem c2_counterexample_opcount_32 :
    ¬ (stepsExecuted 32 = 32 / 32 * 32) := by
  have h1 : loopCount (32 / 32) = 0 := by
    rw [loopCount_pos (32 / 32) (by omega) (by simp [UINT32])]
  rw [stepsExecuted, h1]
  omega

/-- C2 amended: for every requested operation count `op_count` with
`32 ≤ op_count < 2^32`, the traversal engine performs exactly
`(floor(op_count/32) - 1) * 32` pointer-following steps (one batch fewer
than `floor(op_count/32)` because of the pre-decrement loop control). -/
theorem c2_amended_steps (n : Nat) (h1 : 32 ≤ n) (h2 : n < UINT32) :
    stepsExecuted n = (n / 32 - 1) * 32 := by
  have hp : loopCount (n / 32) = n / 32 - 1 := by
    refine loopCount_pos (n / 32) ?_ ?_
    · omega
    · exact lt_of_le_of_lt (Nat.div_le_self n 32) h2
  rw [stepsExecuted, hp]
  ring

/-- C2 amended witness: at the concrete request `op_count = 96` the engine
executes `(3 - 1) * 32 = 64` steps. -/
theorem c2_amended_steps_witness : stepsExecuted 96 = (96 / 32 - 1) * 32 :=
  c2_amended_steps 96 (by decide) (by decide)

/-! ## Claims about the timing source -/

/-- C3 counterexample: on a build without a readable cycle counter, with
cycle-counter mode selected (`use_cycles = true`), the timing source returns
0 even while the monotonic clock reads a nonzero value, so a measured
elapsed time in this mode is 0 — exactly the silently-zero timing the claim
says never happens (and no configuration-time rejection exists in `main`). -/
theorem c3_counterexample_zero_timing :
    (Cfg.mk true 1024 1 33554432 false 0 true).use_cycles = true ∧
    get_time (Cfg.mk true 1024 1 33554432 false 0 true) 987654321 = 0 ∧
    get_time (Cfg.mk true 1024 1 33554432 false 0 true) 1987654321 -
      get_time (Cfg.mk true 1024 1 33554432 false 0 true) 987654321 = 0 := by
  refine ⟨rfl, rfl, rfl⟩

/-- C3 amended: on an architecture without a readable hardware counter the
configuration is not rejected; `ccntr_get` is the constant 0, so in
cycle-counter mode `get_time` returns 0 whatever the monotonic clock reads,
and every elapsed time measured in this mode is 0. -/
theorem c3_amended_constant_zero (cfg : Cfg) (t : Nat) (h : cfg.use_cycles = true) :
    get_time cfg t = 0 := by
  simp [get_time, ccntr_get, h]

/-- C3 amended witness: a concrete cycle-mode configuration at a concrete
clock value yields timestamp 0. -/
theorem c3_amended_constant_zero_witness :
    get_time (Cfg.mk true 1024 1 33554432 false 0 true) 5 = 0 :=
  c3_amended_constant_zero (Cfg.mk true 1024 1 33554432 false 0 true) 5 rfl

/-! ## Claim about the orchestrator's worker bound -/

/-- C4: with `num_threads = 9` (from `-t 9`, stored unchecked by `main`),
`run_benchmark` writes the worker record at index 8, which is not within the
8-element `thread[MAX_CPUS]` array: the thread count is not bounded by the
fixed maximum core count. -/
theorem c4_worker_record_out_of_bounds :
    8 ∈ threadRecordIndices 9 ∧ ¬ (8 < MAX_CPUS) := by
  constructor
  · simp [threadRecordIndices]
  · decide

/-! ## Claims about the random-mode cycle generator -/

/-- C1: at the concrete input `size = 192` (`count = 3`), random mode, fresh
zero-initialised arena, `rand()` stream `[2, 2]`: following `next` from node
0 for `count = 3` steps returns to node 0, but the node reached after 2 steps
is node 3, which does not lie within the first `count = 3` nodes of the
arena — the generated cycle escapes the working set. -/
theorem c1_random_cycle_escapes_working_set :
    readIter (prepare zeroArena 192 false [2, 2]) 0 3 = some 0 ∧
    readIter (prepare zeroArena 192 false [2, 2]) 0 2 = some 3 ∧
    ¬ (3 < 192 / 64) := by
  refine ⟨by decide, by decide, by decide⟩

/-- C10: at the concrete input `size = 192` (`count = 3`), random mode, fresh
zero-initialised arena, `rand()` stream `[2, 2]`: the linear scan of
`prepare` reads the `ptr` field at index 3 = `count`, one past the working
set, instead of wrapping to 0 after index `count - 1`. -/
theorem c10_scan_probes_index_count :
    3 ∈ prepareProbes zeroArena 192 [2, 2] ∧ ¬ (3 < 192 / 64) := by
  refine ⟨by decide, by decide⟩

/-! ## Claim about the per-worker result computation -/

/-- C6: the per-worker result of `benchmark_thread` is the elapsed time
divided by the requested operation count `read_count` (so multiplying it
back by `read_count` recovers the elapsed time exactly), and it differs from
the elapsed time divided by the actual truncated-to-batch step count, as the
concrete configuration `read_count = 64` shows. -/
theorem c6_result_divides_by_requested_count :
    (∀ (cfg : Cfg) (tic tac : Nat), cfg.read_count ≠ 0 →
      benchmark_result cfg tic tac * (cfg.read_count : ℚ) = ((tac - tic : Nat) : ℚ)) ∧
    (∃ (cfg : Cfg) (tic tac : Nat),
      benchmark_result cfg tic tac ≠
        ((tac - tic : Nat) : ℚ) / (stepsExecuted cfg.read_count : ℚ)) := by
  constructor
  · intro cfg tic tac h
    rw [benchmark_result]
    have hq : (cfg.read_count : ℚ) ≠ 0 := Nat.cast_ne_zero.mpr h
    field_simp
  · refine ⟨Cfg.mk true 1024 1 64 false 0 false, 0, 320, ?_⟩
    have hs : stepsExecuted 64 = 32 := by
      have h1 : loopCount (64 / 32) = 1 := by
        rw [loopCount_pos (64 / 32) (by omega) (by simp [UINT32])]
      rw [stepsExecuted, h1]
    rw [benchmark_result, hs]
    norm_num

/-- C6 witness: at the concrete configuration `read_count = 64` with
timestamps 0 and 320, the reported result times the requested count equals
the elapsed time 320. -/
theorem c6_result_divides_by_requested_count_witness :
    benchmark_result (Cfg.mk true 1024 1 64 false 0 false) 0 320 *
      ((Cfg.mk true 1024 1 64 false 0 false).read_count : ℚ) = ((320 - 0 : Nat) : ℚ) :=
  c6_result_divides_by_requested_count.1 (Cfg.mk true 1024 1 64 false 0 false) 0 320 (by decide)

/-! ## The sequential cycle generator -/

/-- Reading node `k` of `setPtr a i v`. -/
theorem setPtr_get (a : Arena) (i : Nat) (v : PtrVal) (k : Nat) :
    setPtr a i v k = if k = i then Node.mk v ((a k).dummy) else a k := rfl

/-- Sequential `prepare` unfolded: link loop over the first `count - 1`
nodes, then the closing link of node `count - 1` back to node 0. -/
theorem prepare_seq_eq (a : Arena) (size : Nat) (rands : List Nat) :
    prepare a size true rands =
      setPtr (prepareSeqLoop a (size / 64 - 1)) (size / 64 - 1) (PtrVal.addr 0) := rfl

/-- Node `k` after the first `n` iterations of the sequential link loop:
nodes below `n` point at their successor, the rest are untouched. -/
theorem prepareSeqLoop_get (a : Arena) (n k : Nat) :
    prepareSeqLoop a n k =
      if k < n then Node.mk (PtrVal.addr (k + 1)) ((a k).dummy) else a k := by
  induction n with
  | zero => simp [prepareSeqLoop]
  | succ n ih =>
    rw [prepareSeqLoop, setPtr_get, ih]
    by_cases hk : k = n
    · subst hk
      simp
    · by_cases hlt : k < n
      · rw [if_neg hk, if_pos hlt, if_pos (show k < n + 1 by omega)]
      · rw [if_neg hk, if_neg hlt, if_neg (show ¬ k < n + 1 by omega)]

/-- Sequential `prepare` leaves every node's `dummy` padding unchanged. -/
theorem prepare_seq_dummy (a : Arena) (size : Nat) (rands : List Nat) (k : Nat) :
    (prepare a size true rands k).dummy = (a k).dummy := by
  rw [prepare_seq_eq, setPtr_get]
  by_cases hk : k = size / 64 - 1
  · rw [if_pos hk, prepareSeqLoop_get]
    by_cases h2 : k < size / 64 - 1
    · rw [if_pos h2]
    · rw [if_neg h2]
  · rw [if_neg hk, prepareSeqLoop_get]
    by_cases h2 : k < size / 64 - 1
    · rw [if_pos h2]
    · rw [if_neg h2]

/-- C7: for every `count ≥ 1` and any `rand()` stream (sequential mode never
consumes randomness, so the result is deterministic), sequential `prepare`
over `size = 64 * count` sets `next[i] = i + 1` for `i < count - 1` and
`next[count - 1] = 0`. -/
theorem c7_sequential_prepare (a : Arena) (count : Nat) (rands : List Nat)
    (h : 1 ≤ count) :
    (∀ i, i < count - 1 →
      (prepare a (64 * count) true rands i).ptr = PtrVal.addr (i + 1)) ∧
    (prepare a (64 * count) true rands (count - 1)).ptr = PtrVal.addr 0 := by
  have hc : 64 * count / 64 = count := by omega
  constructor
  · intro i hi
    rw [prepare_seq_eq, hc, setPtr_get, if_neg (by omega), prepareSeqLoop_get, if_pos hi]
  · rw [prepare_seq_eq, hc, setPtr_get, if_pos rfl]

/-- C7 witness: for `count = 4`, node 2 links to node 3 and node 3 links back
to node 0. -/
theorem c7_sequential_prepare_witness :
    (prepare zeroArena (64 * 4) true [] 2).ptr = PtrVal.addr 3 ∧
    (prepare zeroArena (64 * 4) true [] (4 - 1)).ptr = PtrVal.addr 0 :=
  ⟨(c7_sequential_prepare zeroArena 4 [] (by decide)).1 2 (by decide),
   (c7_sequential_prepare zeroArena 4 [] (by decide)).2⟩

/-- Sequential `prepare` over `size = 64 * count` produces the closed
successor cycle `seqCycle` on the first `count` nodes. -/
theorem prepare_seqCycle (a : Arena) (count : Nat) (rands : List Nat)
    (h : 1 ≤ count) :
    seqCycle (prepare a (64 * count) true rands) count := by
  intro i hi
  have hc : 64 * count / 64 = count := by omega
  rw [prepare_seq_eq, hc, setPtr_get]
  by_cases hlast : i + 1 = count
  · rw [if_pos (show i = count - 1 by omega), if_pos hlast]
  · rw [if_neg (show ¬ i = count - 1 by omega), prepareSeqLoop_get,
      if_pos (show i < count - 1 by omega), if_neg hlast]

/-! ## The write-mode traversal -/

/-- `p->dummy[ofs]++` does not touch any node's `ptr` field. -/
theorem incDummy_ptr (a : Arena) (i ofs k : Nat) :
    (incDummy a i ofs k).ptr = (a k).ptr := by
  by_cases hk : k = i <;> simp [incDummy, hk]

/-- The padding values after `p->dummy[ofs]++`: only slot `ofs` of node `i`
changes, by a wrapping increment. -/
theorem incDummy_dummy (a : Arena) (i ofs k o : Nat) :
    (incDummy a i ofs k).dummy o =
      if k = i ∧ o = ofs then ((a k).dummy o + 1) % UINT32 else (a k).dummy o := by
  by_cases hk : k = i <;> by_cases ho : o = ofs <;> simp [incDummy, hk, ho]

/-- The increment step preserves the sequential cycle structure. -/
theorem seqCycle_incDummy (a : Arena) (count i ofs : Nat) (hcy : seqCycle a count) :
    seqCycle (incDummy a i ofs) count := by
  intro j hj
  rw [incDummy_ptr]
  exact hcy j hj

/-- A write-mode step from a node whose `ptr` holds an address succeeds and
moves the cursor there. -/
theorem writeStep_of_addr (ofs : Nat) (a : Arena) (p j : Nat)
    (h : (a p).ptr = PtrVal.addr j) :
    writeStep ofs a p = some (incDummy a p ofs, j) := by
  have h1 : (incDummy a p ofs p).ptr = PtrVal.addr j := by
    rw [incDummy_ptr]
    exact h
  simp only [writeStep]
  rw [h1]

/-- A write-mode step from a node whose `ptr` is NULL fails (the C code would
dereference NULL). -/
theorem writeStep_of_null (ofs : Nat) (a : Arena) (p : Nat)
    (h : (a p).ptr = PtrVal.null) : writeStep ofs a p = none := by
  have h1 : (incDummy a p ofs p).ptr = PtrVal.null := by
    rw [incDummy_ptr]
    exact h
  simp only [writeStep]
  rw [h1]

/-- A write-mode step from a node still holding the occupation marker fails. -/
theorem writeStep_of_mark (ofs : Nat) (a : Arena) (p : Nat)
    (h : (a p).ptr = PtrVal.mark) : writeStep ofs a p = none := by
  have h1 : (incDummy a p ofs p).ptr = PtrVal.mark := by
    rw [incDummy_ptr]
    exact h
  simp only [writeStep]
  rw [h1]

/-- Any successful run of write-mode steps leaves every node's `ptr` field
unchanged: the write loop only ever touches `dummy` padding. -/
theorem writeIter_ptr_frame (ofs : Nat) :
    ∀ (n : Nat) (b : Arena) (p : Nat) (r : Arena × Nat),
      writeIter ofs b p n = some r → ∀ k, (r.1 k).ptr = (b k).ptr := by
  intro n
  induction n with
  | zero =>
    intro b p r hr k
    rw [writeIter] at hr
    cases hr
    rfl
  | succ n ih =>
    intro b p r hr k
    cases hap : (b p).ptr with
    | null =>
      rw [writeIter, writeStep_of_null ofs b p hap] at hr
      exact Option.noConfusion hr
    | mark =>
      rw [writeIter, writeStep_of_mark ofs b p hap] at hr
      exact Option.noConfusion hr
    | addr j =>
      rw [writeIter, writeStep_of_addr ofs b p j hap] at hr
      have h3 := ih (incDummy b p ofs) j r hr k
      rw [h3, incDummy_ptr]

/-- Splitting a run of write-mode steps at an intermediate point. -/
theorem writeIter_add (ofs : Nat) :
    ∀ (x y : Nat) (a : Arena) (p : Nat),
      writeIter ofs a p (x + y) =
        Option.bind (writeIter ofs a p x) (fun s => writeIter ofs s.1 s.2 y) := by
  intro x
  induction x with
  | zero =>
    intro y a p
    rw [Nat.zero_add]
    rfl
  | succ x ihx =>
    intro y a p
    cases hws : writeStep ofs a p with
    | none =>
      have hl : writeIter ofs a p (x + y + 1) = none := by rw [writeIter, hws]
      have hr : writeIter ofs a p (x + 1) = none := by rw [writeIter, hws]
      rw [show x + 1 + y = x + y + 1 by omega, hl, hr]
      rfl
    | some s =>
      have hl : writeIter ofs a p (x + y + 1) = writeIter ofs s.1 s.2 (x + y) := by
        rw [writeIter, hws]
      have hr : writeIter ofs a p (x + 1) = writeIter ofs s.1 s.2 x := by
        rw [writeIter, hws]
      rw [show x + 1 + y = x + y + 1 by omega, hl, hr, ihx y s.1 s.2]

/-- One segment of a pass over the sequential cycle: starting at node
`q < count` and taking `n ≤ count - q` write-mode steps succeeds, lands at
`(q + n) % count`, preserves every `ptr`, and increments slot `ofs` of nodes
`q, ..., q + n - 1` exactly once. -/
theorem writeIter_seq_segment (ofs count : Nat) :
    ∀ (n q : Nat) (a : Arena), seqCycle a count → q < count → q + n ≤ count →
    ∃ a2, writeIter ofs a q n = some (a2, (q + n) % count) ∧
      (∀ k, (a2 k).ptr = (a k).ptr) ∧
      (∀ k o, (a2 k).dummy o =
        if q ≤ k ∧ k < q + n ∧ o = ofs then ((a k).dummy o + 1) % UINT32
        else (a k).dummy o) := by
  intro n
  induction n with
  | zero =>
    intro q a hcy hq hqn
    refine ⟨a, ?_, fun k => rfl, ?_⟩
    · rw [writeIter, Nat.add_zero, Nat.mod_eq_of_lt hq]
    · intro k o
      rw [if_neg (by omega)]
  | succ n ih =>
    intro q a hcy hq hqn
    have hap := hcy q hq
    by_cases hl : q + 1 = count
    · have hn : n = 0 := by omega
      subst hn
      have hws := writeStep_of_addr ofs a q 0 (by rw [hap, if_pos hl])
      refine ⟨incDummy a q ofs, ?_, ?_, ?_⟩
      · have hq1 : q + (0 + 1) = count := by omega
        rw [hq1, Nat.mod_self, writeIter, hws]
        rfl
      · intro k
        rw [incDummy_ptr]
      · intro k o
        rw [incDummy_dummy]
        split_ifs <;> first | rfl | omega
    · have hws := writeStep_of_addr ofs a q (q + 1) (by rw [hap, if_neg hl])
      obtain ⟨a2, hit, hptr2, hd2⟩ := ih (q + 1) (incDummy a q ofs)
        (seqCycle_incDummy a count q ofs hcy) (by omega) (by omega)
      have hstep : writeIter ofs a q (n + 1) = writeIter ofs (incDummy a q ofs) (q + 1) n := by
        rw [writeIter, hws]
      refine ⟨a2, ?_, ?_, ?_⟩
      · rw [hstep, hit, show q + 1 + n = q + (n + 1) by omega]
      · intro k
        rw [hptr2 k, incDummy_ptr]
      · intro k o
        rw [hd2 k o]
        simp only [incDummy_dummy]
        split_ifs <;> first | rfl | omega

/-- `m` full passes over the sequential cycle: starting at node 0 and taking
`m * count` write-mode steps succeeds, returns the cursor to node 0,
preserves every `ptr`, and increments slot `ofs` of every node of the
working set by exactly `m` (modulo 2^32); all other padding is untouched. -/
theorem writeIter_seq_passes (ofs count : Nat) (hc : 1 ≤ count) :
    ∀ (m : Nat) (a : Arena), seqCycle a count → (∀ k o, (a k).dummy o < UINT32) →
    ∃ a2, writeIter ofs a 0 (m * count) = some (a2, 0) ∧
      (∀ k, (a2 k).ptr = (a k).ptr) ∧
      (∀ k o, (a2 k).dummy o =
        if k < count ∧ o = ofs then ((a k).dummy o + m) % UINT32 else (a k).dummy o) := by
  intro m
  induction m with
  | zero =>
    intro a hcy hv
    refine ⟨a, by rw [Nat.zero_mul, writeIter], fun k => rfl, ?_⟩
    intro k o
    by_cases h : k < count ∧ o = ofs
    · rw [if_pos h, Nat.add_zero, Nat.mod_eq_of_lt (hv k o)]
    · rw [if_neg h]
  | succ m ihm =>
    intro a hcy hv
    obtain ⟨a1, h1, hp1, hd1⟩ := writeIter_seq_segment ofs count count 0 a hcy (by omega) (by omega)
    rw [Nat.zero_add, Nat.mod_self] at h1
    have hcy1 : seqCycle a1 count := by
      intro i hi
      rw [hp1 i]
      exact hcy i hi
    have hv1 : ∀ k o, (a1 k).dummy o < UINT32 := by
      intro k o
      rw [hd1 k o]
      by_cases h : 0 ≤ k ∧ k < 0 + count ∧ o = ofs
      · rw [if_pos h]
        exact Nat.mod_lt _ (by decide)
      · rw [if_neg h]
        exact hv k o
    obtain ⟨a2, h2, hp2, hd2⟩ := ihm a1 hcy1 hv1
    refine ⟨a2, ?_, ?_, ?_⟩
    · rw [show (m + 1) * count = count + m * count by ring, writeIter_add ofs count (m * count) a 0, h1]
      exact h2
    · intro k
      rw [hp2 k, hp1 k]
    · intro k o
      rw [hd2 k o]
      simp only [hd1]
      split_ifs <;> first | rfl | omega | (rw [Nat.mod_add_mod]; congr 1; omega)

/-- C5: for every `count ≥ 1` and every valid write offset `ofs < 14`
(checked by `main`'s assert), write-mode traversal never alters any node's
`next` field (any successful run of write steps preserves every `ptr`), and
over a sequentially prepared cycle, `m` full passes over the `count` nodes
leave the value at offset `ofs` of every working-set node incremented by
exactly `m` (as a `uint32_t`, i.e. modulo 2^32), with all other padding and
all nodes outside the working set untouched. -/
theorem c5_write_preserves_next_and_increments (count ofs m : Nat) (a : Arena)
    (h1 : 1 ≤ count) (h2 : ofs < 14) (hv : ∀ k o, (a k).dummy o < UINT32) :
    (∀ (b : Arena) (p n : Nat) (r : Arena × Nat),
      writeIter ofs b p n = some r → ∀ k, (r.1 k).ptr = (b k).ptr) ∧
    (∃ a2, writeIter ofs (prepare a (64 * count) true []) 0 (m * count) = some (a2, 0) ∧
      (∀ k, (a2 k).ptr = (prepare a (64 * count) true [] k).ptr) ∧
      (∀ k, k < count → (a2 k).dummy ofs = ((a k).dummy ofs + m) % UINT32) ∧
      (∀ k o, ¬(k < count ∧ o = ofs) → (a2 k).dummy o = (a k).dummy o)) := by
  constructor
  · intro b p n r hr k
    exact writeIter_ptr_frame ofs n b p r hr k
  · have hcy := prepare_seqCycle a count [] h1
    have hv2 : ∀ k o, (prepare a (64 * count) true [] k).dummy o < UINT32 := by
      intro k o
      rw [prepare_seq_dummy]
      exact hv k o
    obtain ⟨a2, hit, hp, hd⟩ := writeIter_seq_passes ofs count h1 m _ hcy hv2
    refine ⟨a2, hit, hp, ?_, ?_⟩
    · intro k hk
      rw [hd k ofs, if_pos ⟨hk, rfl⟩, prepare_seq_dummy]
    · intro k o hko
      rw [hd k o, if_neg hko, prepare_seq_dummy]

/-- C5 witness: `count = 2`, `ofs = 0`, `m = 3` passes over the fresh arena:
the run succeeds, `ptr` fields are untouched, and both working-set nodes end
with padding slot 0 equal to `(0 + 3) % 2^32`. -/
theorem c5_write_preserves_next_and_increments_witness :
    (∀ (b : Arena) (p n : Nat) (r : Arena × Nat),
      writeIter 0 b p n = some r → ∀ k, (r.1 k).ptr = (b k).ptr) ∧
    (∃ a2, writeIter 0 (prepare zeroArena (64 * 2) true []) 0 (3 * 2) = some (a2, 0) ∧
      (∀ k, (a2 k).ptr = (prepare zeroArena (64 * 2) true [] k).ptr) ∧
      (∀ k, k < 2 → (a2 k).dummy 0 = ((zeroArena k).dummy 0 + 3) % UINT32) ∧
      (∀ k o, ¬(k < 2 ∧ o = 0) → (a2 k).dummy o = (zeroArena k).dummy o)) :=
  c5_write_preserves_next_and_increments 2 0 3 zeroArena (by decide) (by decide)
    (fun k o => by norm_num [zeroArena, UINT32])

end Membench
